import Mathlib

/-!
Verification of the multi-agent coordinator of `src/agent_coordinator.py`.

The development shallowly embeds the handoff state machine of the repository:
`AgentType`, the conversation entries (Python dicts with optional keys become a
structure with `Option` fields), `HandoffRequest`, the agent tool-call loop
`BaseAgent.process_message` (5-iteration failsafe), the history merge of
`BaseAgent.request_handoff`, and the coordinator turn
`MultiAgentCoordinator.process_message` with its routing step
`_coordinate_request`, the bounded chain `_process_handoff_chain`
(max 3 hops) and `reset_conversation`.

External collaborators (the OpenAI completion endpoint, `json.loads`, the
per-agent tool handlers) are modelled as oracles supplied in an environment
record; exceptions they raise are modelled with `Except String`.  Python
generator semantics are modelled by total functions returning the list of
yielded fragments; `time.time()` timestamps are modelled by a monotone
counter (`clock`) carried in the coordinator state, since only the presence
of a timestamp key (never its value) is observable in the embedded logic.
-/

/-- The `AgentType` enum of `agent_coordinator.py`. -/
inductive AgentType
  | coordinator
  | pricing
  | authentication
  | pharmacy
  | benefits
  | clinical
deriving DecidableEq, Repr

/-- The `.value` string of each `AgentType` member. -/
def AgentType.value : AgentType → String
  | .coordinator => "coordinator"
  | .pricing => "pricing"
  | .authentication => "authentication"
  | .pharmacy => "pharmacy"
  | .benefits => "benefits"
  | .clinical => "clinical"

/-- The Python constructor call `AgentType(s)`: returns the member whose value
is `s`, or raises `ValueError` (modelled as `.error`) otherwise. -/
def AgentType.fromString (s : String) : Except String AgentType :=
  if s = "coordinator" then .ok .coordinator
  else if s = "pricing" then .ok .pricing
  else if s = "authentication" then .ok .authentication
  else if s = "pharmacy" then .ok .pharmacy
  else if s = "benefits" then .ok .benefits
  else if s = "clinical" then .ok .clinical
  else .error ("ValueError: " ++ s ++ " is not a valid AgentType")

/-- One tool call as carried in a completion response and re-serialized into
history entries: `{"id": ..., "type": "function", "function": {"name": ...,
"arguments": ...}}`.  The constant `"type": "function"` field is elided. -/
structure ToolCall where
  id : String
  name : String
  arguments : String
deriving DecidableEq, Repr

/-- One conversation/message dict.  Python dicts with optional keys are
modelled with `Option` fields; a missing key is `none`.  Coordinator history
entries carry `agent`/`timestamp` keys, agent-local entries do not — so the
two are never equal by value, exactly as in the Python `in` checks. -/
structure Entry where
  role : String
  content : Option String := none
  tool_calls : Option (List ToolCall) := none
  tool_call_id : Option String := none
  agent : Option String := none
  timestamp : Option Nat := none
deriving DecidableEq, Repr

/-- The `choices[0].message` of a completion response: optional text content
plus tool calls (Python `None` and `[]` are both falsy, modelled as `[]`). -/
structure CompMsg where
  content : Option String := none
  tool_calls : List ToolCall := []
deriving DecidableEq, Repr

/-- The `conversation_context` dict.  Only the keys actually read or written
by `agent_coordinator.py` are modelled; a missing key is `none`. -/
structure Ctx where
  conversation_history : Option (List Entry) := none
  summary : Option String := none
  context_summary : Option String := none
  handoff_reason : Option String := none
  previous_agent : Option String := none
deriving DecidableEq, Repr

/-- The `handoff_context` dict built by `BaseAgent.request_handoff`; it always
carries exactly these four keys. -/
structure HandoffContext where
  summary : String
  conversation_history : List Entry
  previous_agent : String
  handoff_reason : String
deriving DecidableEq, Repr

/-- The `HandoffRequest` dataclass. -/
structure HandoffRequest where
  from_agent : AgentType
  to_agent : AgentType
  context : HandoffContext
  reason : String
  user_message : String
deriving DecidableEq, Repr

/-- `conversation_context.update(handoff.context)`: the four keys present in a
`HandoffContext` overwrite the corresponding context keys; `context_summary`
is untouched. -/
def Ctx.updateFromHandoff (c : Ctx) (hc : HandoffContext) : Ctx :=
  { c with
    summary := some hc.summary
    conversation_history := some hc.conversation_history
    previous_agent := some hc.previous_agent
    handoff_reason := some hc.handoff_reason }

namespace BaseAgent

/-- The merge loop of `BaseAgent.request_handoff`:
`merged_history = coordinator.conversation_history.copy()` followed by
`for msg in self.conversation_history: if msg not in merged_history:
merged_history.append(msg)`.  Note the membership test is against the
growing merged list. -/
def mergeHistoryLoop (merged : List Entry) : List Entry → List Entry
  | [] => merged
  | msg :: rest =>
      if msg ∈ merged then mergeHistoryLoop merged rest
      else mergeHistoryLoop (merged ++ [msg]) rest

/-- `BaseAgent.request_handoff` (with the coordinator reference present, as
established by `register_agent`): builds the `HandoffRequest` whose context
carries the merged (deduplicated) history. -/
def request_handoff (agent_type : AgentType) (coordinatorHistory localHistory : List Entry)
    (to_agent : AgentType) (reason context_summary user_message : String) : HandoffRequest :=
  let merged_history := mergeHistoryLoop coordinatorHistory localHistory
  { from_agent := agent_type
    to_agent := to_agent
    context :=
      { summary := context_summary
        conversation_history := merged_history
        previous_agent := agent_type.value
        handoff_reason := reason }
    reason := reason
    user_message := user_message }

end BaseAgent

section MergeLemmas

/-- Invariant of the merge loop: the result is the accumulator followed by a
duplicate-free, order-preserving selection of the remaining local entries,
none of which were already in the accumulator, and covering every remaining
local entry up to membership. -/
theorem mergeHistoryLoop_spec (l : List Entry) :
    ∀ merged : List Entry, ∃ extra : List Entry,
      BaseAgent.mergeHistoryLoop merged l = merged ++ extra ∧
      extra.Sublist l ∧ extra.Nodup ∧
      (∀ e ∈ extra, e ∉ merged) ∧
      (∀ e ∈ l, e ∈ merged ∨ e ∈ extra) := by
  induction l with
  | nil =>
      intro merged
      exact ⟨[], by simp [BaseAgent.mergeHistoryLoop]⟩
  | cons m rest ih =>
      intro merged
      by_cases hm : m ∈ merged
      · obtain ⟨extra, heq, hsub, hnd, hfresh, hcover⟩ := ih merged
        refine ⟨extra, ?_, hsub.cons m, hnd, hfresh, ?_⟩
        · simpa [BaseAgent.mergeHistoryLoop, hm] using heq
        · intro e he
          rcases List.mem_cons.mp he with rfl | he'
          · exact Or.inl hm
          · exact hcover e he'
      · obtain ⟨extra, heq, hsub, hnd, hfresh, hcover⟩ := ih (merged ++ [m])
        refine ⟨m :: extra, ?_, hsub.cons₂ m, ?_, ?_, ?_⟩
        · simp only [BaseAgent.mergeHistoryLoop, hm, if_false]
          rw [heq]
          simp
        · refine List.nodup_cons.mpr ⟨?_, hnd⟩
          intro hmem
          have := hfresh m hmem
          simp at this
        · intro e he
          rcases List.mem_cons.mp he with rfl | he'
          · exact hm
          · intro hcon
            have := hfresh e he'
            simp [hcon] at this
        · intro e he
          rcases List.mem_cons.mp he with rfl | he'
          · exact Or.inr (List.mem_cons_self _ _)
          · rcases hcover e he' with h | h
            · rcases List.mem_append.mp h with h' | h'
              · exact Or.inl h'
              · simp at h'
                subst h'
                exact Or.inr (List.mem_cons_self _ _)
            · exact Or.inr (List.mem_cons_of_mem _ h)

end MergeLemmas

namespace BaseAgent

/-- The fixed failsafe message yielded when the 5-iteration tool loop is
exhausted (line 190 of `agent_coordinator.py`). -/
def failsafeMsg : String :=
  "I\x27m sorry, I wasn\x27t able to complete your request after several attempts. Please try again or rephrase."

/-- The message yielded by the top-level `except` clause of `process_message`
(line 193): note it interpolates `str(e)`. -/
def errApology (e : String) : String :=
  "I\x27m sorry, I encountered an error processing your request: " ++ e

/-- Python `str.split()`: split on whitespace, dropping empty pieces. -/
def pySplit (s : String) : List String :=
  (s.split Char.isWhitespace).filter (fun w => w ≠ "")

/-- A parsed JSON argument object (`json.loads` result), as a key-value list.
Only string-valued fields are inspected by the embedded code. -/
abbrev ArgMap : Type := List (String × String)

/-- Python `fn_args["key"]`: value lookup raising `KeyError` when absent. -/
def lookupArg (args : ArgMap) (key : String) : Except String String :=
  match List.find? (fun p => p.1 = key) args with
  | some p => .ok p.2
  | none => .error ("KeyError: " ++ key)

/-- `json.dumps({"handoff_requested": True, "reason": reason})` (line 144);
JSON string escaping of `reason` is elided. -/
def handoffAck (reason : String) : String :=
  "\x7b\"handoff_requested\": true, \"reason\": \"" ++ reason ++ "\"\x7d"

/-- The assistant entry recording raw tool-call requests (lines 116-129). -/
def assistantCallsEntry (content : Option String) (tcs : List ToolCall) : Entry :=
  { role := "assistant", content := content, tool_calls := some tcs }

/-- A tool-result entry correlated by call id. -/
def toolResultEntry (id : String) (content : String) : Entry :=
  { role := "tool", tool_call_id := some id, content := some content }

/-- The assistant entry recording a final answer (line 184). -/
def assistantAnswerEntry (c : String) : Entry :=
  { role := "assistant", content := some c }

/-- The user entry appended to the agent-local history (line 101); note it
carries no timestamp, unlike the coordinator's user entries. -/
def localUserEntry (message : String) : Entry :=
  { role := "user", content := some message }

/-- The external collaborators of one agent: the CompletionClient
(`client.chat.completions.create`), `json.loads`, and the subclass tool
handler `handle_tool_call`.  Each may raise, modelled by `Except String`. -/
structure AgentEnv where
  complete : List Entry → Except String CompMsg
  parseJson : String → Except String ArgMap
  handle_tool_call : String → ArgMap → Except String String

/-- The `_build_messages` method: system prompt, the reconstructed history
(context history if the context carries one, else the local history), an
optional synthetic system entry with handoff context inserted right after the
system prompt, then the current user message. -/
def build_messages (system_prompt : String) (localHistory : List Entry)
    (message : String) (context : Option Ctx) : List Entry :=
  let base : List Entry := [{ role := "system", content := some system_prompt }]
  let hist : List Entry :=
    match context with
    | some c =>
        match c.conversation_history with
        | some h => h
        | none => localHistory
    | none => localHistory
  let rebuilt : List Entry := hist.foldl (fun acc m =>
    if m.role = "assistant" ∧ m.tool_calls.isSome then
      acc ++ [{ role := "assistant", content := m.content, tool_calls := m.tool_calls }]
    else if m.role = "tool" then
      acc ++ [{ role := "tool", tool_call_id := m.tool_call_id,
                content := some (m.content.getD "") }]
    else if m.content.isSome then
      acc ++ [{ role := m.role, content := m.content }]
    else acc) []
  let msgs := base ++ rebuilt
  let msgs :=
    match context with
    | none => msgs
    | some c =>
        let parts : List String :=
          (match c.summary with
           | some s => ["Original context summary: " ++ s]
           | none =>
               match c.context_summary with
               | some s => ["Original context summary: " ++ s]
               | none => []) ++
          (match c.handoff_reason with
           | some r => ["Handoff reason: " ++ r]
           | none => []) ++
          (match c.previous_agent with
           | some p => ["Previous agent: " ++ p]
           | none => [])
        if parts.isEmpty then msgs
        else
          let ctxMsg : Entry := { role := "system", content := some (String.intercalate "\n" parts) }
          match msgs with
          | [] => [ctxMsg]
          | h :: t => h :: ctxMsg :: t
  msgs ++ [{ role := "user", content := some message }]

/-- Result of the inner `for call in msg.tool_calls` loop: a handoff fired, or
all calls were dispatched and the outer loop continues, or an exception was
raised (carrying the history as mutated so far). -/
inductive CallsOutcome
  | handoffFired (history : List Entry) (hr : HandoffRequest)
  | continueLoop (history messages : List Entry)
  | raised (history : List Entry) (e : String)
deriving DecidableEq, Repr

/-- The `for call in msg.tool_calls` body (lines 131-179): `json.loads` the
arguments; on `request_handoff` extract the three fields, append the
acknowledging tool entry, convert the agent type (a `ValueError` here leaves
the appended entry in place) and fire the handoff; otherwise dispatch to
`handle_tool_call` and feed the result back into `messages`. -/
def processCalls (env : AgentEnv) (agent_type : AgentType) (coordinatorHistory : List Entry)
    (message : String) (origContent : Option String) :
    List Entry → List Entry → List ToolCall → CallsOutcome
  | history, messages, [] => .continueLoop history messages
  | history, messages, call :: rest =>
    match env.parseJson call.arguments with
    | .error e => .raised history e
    | .ok args =>
      if call.name = "request_handoff" then
        match lookupArg args "agent_type" with
        | .error e => .raised history e
        | .ok agent_type_str =>
          match lookupArg args "reason" with
          | .error e => .raised history e
          | .ok reason =>
            match lookupArg args "context_summary" with
            | .error e => .raised history e
            | .ok context_summary =>
              let history' := history ++ [toolResultEntry call.id (handoffAck reason)]
              match AgentType.fromString agent_type_str with
              | .error e => .raised history' e
              | .ok toAgent =>
                  .handoffFired history'
                    (request_handoff agent_type coordinatorHistory history'
                      toAgent reason context_summary message)
      else
        match env.handle_tool_call call.name args with
        | .error e => .raised history e
        | .ok result =>
            let messages' := messages ++
              [assistantCallsEntry origContent [call], toolResultEntry call.id result]
            processCalls env agent_type coordinatorHistory message origContent
              history messages' rest

/-- Terminal status of one `process_message` call: a final answer was yielded,
a handoff fired, the 5-iteration bound was exhausted, or an exception was
caught by the top-level `except`. -/
inductive AgentStatus
  | answered
  | handedOff
  | exhausted
  | errored (e : String)
deriving DecidableEq, Repr

/-- The observable effect of one `process_message` call: the agent's local
history after the call, the fragments yielded to the caller, the handoff
handed to the coordinator (if any), the number of CompletionClient
invocations, and the terminal status. -/
structure AgentResult where
  conversation_history : List Entry
  output : List String
  handoff : Option HandoffRequest
  calls : Nat
  status : AgentStatus
deriving DecidableEq, Repr

/-- The `for loop_count in range(5)` loop of `process_message` with its
`for`-`else` failsafe, one completion invocation per iteration.  An empty or
absent `msg.content` with no tool calls falls through to the next iteration
(Python truthiness of `if msg.content:`). -/
def toolLoop (env : AgentEnv) (agent_type : AgentType) (coordinatorHistory : List Entry)
    (message : String) :
    Nat → List Entry → List Entry → Nat → AgentResult
  | 0, history, _messages, calls =>
      ⟨history, [failsafeMsg], none, calls, .exhausted⟩
  | fuel + 1, history, messages, calls =>
    match env.complete messages with
    | .error e => ⟨history, [errApology e], none, calls + 1, .errored e⟩
    | .ok msg =>
      match msg.tool_calls with
      | [] =>
          match msg.content with
          | some c =>
              if c = "" then
                toolLoop env agent_type coordinatorHistory message fuel history messages (calls + 1)
              else
                ⟨history ++ [assistantAnswerEntry c],
                 (pySplit c).map (fun w => w ++ " "), none, calls + 1, .answered⟩
          | none =>
              toolLoop env agent_type coordinatorHistory message fuel history messages (calls + 1)
      | tc :: tcs =>
          let history' := history ++ [assistantCallsEntry msg.content (tc :: tcs)]
          match processCalls env agent_type coordinatorHistory message msg.content
              history' messages (tc :: tcs) with
          | .handoffFired history'' hr =>
              ⟨history'', [], some hr, calls + 1, .handedOff⟩
          | .continueLoop history'' messages' =>
              toolLoop env agent_type coordinatorHistory message fuel history'' messages' (calls + 1)
          | .raised history'' e =>
              ⟨history'', [errApology e], none, calls + 1, .errored e⟩

/-- `BaseAgent.process_message`: append the user entry to the local history
first, build the completion messages, then run the bounded tool-call loop. -/
def process_message (env : AgentEnv) (agent_type : AgentType) (system_prompt : String)
    (coordinatorHistory localHistory : List Entry) (message : String)
    (context : Option Ctx) : AgentResult :=
  let history := localHistory ++ [localUserEntry message]
  let messages := build_messages system_prompt history message context
  toolLoop env agent_type coordinatorHistory message 5 history messages 0

end BaseAgent

namespace MultiAgentCoordinator

/-- The `max_handoffs` default of `_process_handoff_chain`. -/
def max_handoffs : Nat := 3

/-- Fixed message of `_coordinate_request` when the coordinator completion
raises (line 478). -/
def coordTroubleMsg : String :=
  "I\x27m sorry, I\x27m having trouble processing your request right now. Please try again."

/-- Fixed fallback of `_coordinate_request` when no `request_handoff` tool
call was made (line 473). -/
def coordFallbackMsg : String :=
  "I\x27m sorry, I couldn\x27t understand your request. Could you please rephrase it?"

/-- Fixed message of `_coordinate_request` when the routed-to agent is not
registered (line 469); it interpolates the raw `agent_type_str`. -/
def routeUnavailableMsg (agent_type_str : String) : String :=
  "I\x27m sorry, the " ++ agent_type_str ++ " agent is not available right now."

/-- Fixed message of `_process_handoff_chain` when a handoff targets an
unregistered agent (line 615). -/
def chainUnavailableMsg (to_agent : AgentType) : String :=
  "\n\nI\x27m sorry, the " ++ to_agent.value ++ " agent is not available right now."

/-- The fixed overflow notice of `_process_handoff_chain` (line 620). -/
def chainLimitMsg : String :=
  "\n\nI\x27ve transferred your request through multiple specialists. Please let me know if you need further assistance."

/-- The coordinator session state: registered agent keys, shared context,
current agent, authoritative history, pending handoff, plus the `clock`
modelling `time.time()` as a monotone counter. -/
structure CoordState where
  agents : List AgentType
  conversation_context : Ctx
  current_agent : AgentType
  conversation_history : List Entry
  pending_handoff : Option HandoffRequest
  clock : Nat
deriving DecidableEq, Repr

/-- `register_agent`: add the agent key to the registry (Python dict
assignment: idempotent on the key set). -/
def register_agent (st : CoordState) (a : AgentType) : CoordState :=
  if a ∈ st.agents then st else { st with agents := st.agents ++ [a] }

/-- `reset_conversation` (lines 565-570): clear context and history, reset
`current_agent` to COORDINATOR; registrations (and `pending_handoff`) are
not touched. -/
def reset_conversation (st : CoordState) : CoordState :=
  { st with
    conversation_context := {}
    current_agent := AgentType.coordinator
    conversation_history := [] }

/-- What one invocation of a registered agent's `process_message` generator
does, as observed by the coordinator: the streamed fragments and the
`pending_handoff` it installed (the coordinator clears `pending_handoff`
before every invocation, so the value after the call is exactly this). -/
structure AgentOutcome where
  output : List String
  handoff : Option HandoffRequest
deriving Repr

/-- The coordinator's external collaborators: its own routing completion
call, `json.loads`, and the registered agents' `process_message` generators
(indexed by the invocation counter within the turn, the invoked agent, the
forwarded message and the context passed). -/
structure CoordEnv where
  routeResponse : Except String CompMsg
  parseJson : String → Except String BaseAgent.ArgMap
  agentOutcome : Nat → AgentType → String → Ctx → AgentOutcome

/-- Lines 378-386 / 453-461 / 602-610: join the streamed parts, strip, and
append an agent-tagged assistant entry to the authoritative history when the
result is non-empty. -/
def appendAgentReply (st : CoordState) (agentName : String) (parts : List String) : CoordState :=
  if parts.isEmpty then st
  else
    let full := (String.join parts).trim
    if full = "" then st
    else
      { st with
        conversation_history := st.conversation_history ++
          [{ role := "assistant", agent := some agentName, content := some full,
             timestamp := some st.clock }]
        clock := st.clock + 1 }

/-- The observable effect of a turn (or of a chain segment): the state after,
the fragments yielded, the number of agent `process_message` invocations, the
final `handoff_count` of the chain (0 when no chain ran), and the last agent
invoked (if any). -/
structure ChainResult where
  state : CoordState
  output : List String
  agentCalls : Nat
  count : Nat
  lastAgent : Option AgentType
deriving Repr

/-- The `while self.pending_handoff and handoff_count < max_handoffs` loop of
`_process_handoff_chain` (lines 580-616), with `fuel = max_handoffs - count`:
consume the pending handoff, and either switch to the (registered) target,
invoke it and collect its fragments, or yield the fixed unavailable message
and break. -/
def chainLoop (env : CoordEnv) : Nat → Nat → Nat → CoordState → ChainResult
  | 0, _k, count, st => ⟨st, [], 0, count, none⟩
  | fuel + 1, k, count, st =>
    match st.pending_handoff with
    | none => ⟨st, [], 0, count, none⟩
    | some handoff =>
      let st1 : CoordState := { st with pending_handoff := none }
      let count1 := count + 1
      if handoff.to_agent ∈ st1.agents then
        let st2 : CoordState :=
          { st1 with
            current_agent := handoff.to_agent
            conversation_context :=
              { st1.conversation_context.updateFromHandoff handoff.context with
                conversation_history := some st1.conversation_history } }
        let oc := env.agentOutcome k handoff.to_agent handoff.user_message
          st2.conversation_context
        let st3 := appendAgentReply st2 handoff.to_agent.value oc.output
        let st4 : CoordState := { st3 with pending_handoff := oc.handoff }
        let r := chainLoop env fuel (k + 1) count1 st4
        ⟨r.state, oc.output ++ r.output, r.agentCalls + 1, r.count,
         match r.lastAgent with
         | some a => some a
         | none => some handoff.to_agent⟩
      else
        ⟨st1, [chainUnavailableMsg handoff.to_agent], 0, count1, none⟩

/-- `_process_handoff_chain` (lines 576-620): run the bounded loop and, when
`handoff_count >= max_handoffs`, yield the fixed overflow notice.
(`original_message` is accepted but, as in the source, unused: the chain
forwards each handoff's own `user_message`.) -/
def _process_handoff_chain (env : CoordEnv) (k : Nat) (st : CoordState)
    (original_message : String) : ChainResult :=
  let _ := original_message
  let r := chainLoop env max_handoffs k 0 st
  if max_handoffs ≤ r.count then { r with output := r.output ++ [chainLimitMsg] } else r

/-- The `for tool_call in response.choices[0].message.tool_calls` scan of
`_coordinate_request` (lines 427-470): the first call named `request_handoff`
is executed (argument parsing errors and `ValueError` are caught by the inner
`except`, yielding the fixed trouble message); if the scan finds none, the
fixed fallback message is yielded (line 473). -/
def routeScan (env : CoordEnv) (st : CoordState) (user_message : String) :
    List ToolCall → ChainResult
  | [] => ⟨st, [coordFallbackMsg], 0, 0, none⟩
  | tc :: rest =>
    if tc.name = "request_handoff" then
      match env.parseJson tc.arguments with
      | .error _ => ⟨st, [coordTroubleMsg], 0, 0, none⟩
      | .ok args =>
        match BaseAgent.lookupArg args "agent_type" with
        | .error _ => ⟨st, [coordTroubleMsg], 0, 0, none⟩
        | .ok agent_type_str =>
          match BaseAgent.lookupArg args "reason" with
          | .error _ => ⟨st, [coordTroubleMsg], 0, 0, none⟩
          | .ok reason =>
            match BaseAgent.lookupArg args "context_summary" with
            | .error _ => ⟨st, [coordTroubleMsg], 0, 0, none⟩
            | .ok context_summary =>
              let st1 : CoordState :=
                { st with conversation_context :=
                    { st.conversation_context with
                      handoff_reason := some reason
                      context_summary := some context_summary
                      previous_agent := some st.current_agent.value } }
              match AgentType.fromString agent_type_str with
              | .error _ => ⟨st1, [coordTroubleMsg], 0, 0, none⟩
              | .ok target =>
                if target ∈ st1.agents then
                  let st2 : CoordState := { st1 with current_agent := target }
                  let oc := env.agentOutcome 0 target user_message st2.conversation_context
                  let st3 := appendAgentReply st2 target.value oc.output
                  let st4 : CoordState := { st3 with pending_handoff := oc.handoff }
                  if oc.handoff.isSome then
                    let r := _process_handoff_chain env 1 st4 user_message
                    ⟨r.state, oc.output ++ r.output, r.agentCalls + 1, r.count,
                     match r.lastAgent with
                     | some a => some a
                     | none => some target⟩
                  else ⟨st4, oc.output, 1, 0, some target⟩
                else ⟨st1, [routeUnavailableMsg agent_type_str], 0, 0, none⟩
    else routeScan env st user_message rest

/-- `_coordinate_request` (lines 399-481): one forced-tool-choice completion
call; a raising completion yields the fixed trouble message, no tool calls
yields the fixed fallback, else the scan above runs. -/
def _coordinate_request (env : CoordEnv) (st : CoordState) (user_message : String) :
    ChainResult :=
  match env.routeResponse with
  | .error _ => ⟨st, [coordTroubleMsg], 0, 0, none⟩
  | .ok msg =>
    match msg.tool_calls with
    | [] => ⟨st, [coordFallbackMsg], 0, 0, none⟩
    | tc :: rest => routeScan env st user_message (tc :: rest)

/-- The user entry appended by lines 358-362 (`role`, `content`, `timestamp`). -/
def userEntry (user_message : String) (clock : Nat) : Entry :=
  { role := "user", content := some user_message, timestamp := some clock }

/-- The preamble of `MultiAgentCoordinator.process_message` (lines 354-365):
clear any pending handoff, append the user entry to the authoritative
history, and refresh the context's history copy. -/
def turnStart (st : CoordState) (user_message : String) : CoordState :=
  let st0 : CoordState := { st with pending_handoff := none }
  let st1 : CoordState :=
    { st0 with
      conversation_history := st0.conversation_history ++ [userEntry user_message st0.clock]
      clock := st0.clock + 1 }
  { st1 with conversation_context :=
      { st1.conversation_context with conversation_history := some st1.conversation_history } }

/-- `MultiAgentCoordinator.process_message` (lines 349-397): run the turn
preamble, then either continue with the sticky current agent (running the
handoff chain afterwards if the agent installed one) or route via the
coordinator. -/
def process_message (env : CoordEnv) (st : CoordState) (user_message : String) :
    ChainResult :=
  let st2 : CoordState := turnStart st user_message
  if st2.current_agent ≠ AgentType.coordinator ∧ st2.current_agent ∈ st2.agents then
    let oc := env.agentOutcome 0 st2.current_agent user_message st2.conversation_context
    let st3 := appendAgentReply st2 st2.current_agent.value oc.output
    let st4 : CoordState := { st3 with pending_handoff := oc.handoff }
    if oc.handoff.isSome then
      let r := _process_handoff_chain env 1 st4 user_message
      ⟨r.state, oc.output ++ r.output, r.agentCalls + 1, r.count,
       match r.lastAgent with
       | some a => some a
       | none => some st2.current_agent⟩
    else ⟨st4, oc.output, 1, 0, some st2.current_agent⟩
  else _coordinate_request env st2 user_message

end MultiAgentCoordinator

namespace MultiAgentCoordinator

/-- `appendAgentReply` only ever appends to the history and touches no other
field. -/
theorem appendAgentReply_fields (st : CoordState) (n : String) (parts : List String) :
    (appendAgentReply st n parts).agents = st.agents ∧
    (appendAgentReply st n parts).current_agent = st.current_agent ∧
    (appendAgentReply st n parts).pending_handoff = st.pending_handoff ∧
    ∃ t, (appendAgentReply st n parts).conversation_history = st.conversation_history ++ t := by
  unfold appendAgentReply
  by_cases h1 : parts.isEmpty
  · simp [h1]
  · by_cases h2 : (String.join parts).trim = ""
    · simp [h1, h2]
    · refine ⟨?_, ?_, ?_, ?_⟩ <;> simp [h1, h2]

/-- Combined invariant of the handoff-chain loop: at most `fuel` agent
invocations, the handoff counter grows by at most `fuel`, the authoritative
history is only appended to, the registry is untouched, and `current_agent`
ends at the last agent the chain invoked (unchanged when none was). -/
theorem chainLoop_spec (env : CoordEnv) :
    ∀ (fuel k count : Nat) (st : CoordState),
      (chainLoop env fuel k count st).agentCalls ≤ fuel ∧
      count ≤ (chainLoop env fuel k count st).count ∧
      (chainLoop env fuel k count st).count ≤ count + fuel ∧
      (∃ t, (chainLoop env fuel k count st).state.conversation_history =
        st.conversation_history ++ t) ∧
      (chainLoop env fuel k count st).state.agents = st.agents ∧
      (chainLoop env fuel k count st).state.current_agent =
        (match (chainLoop env fuel k count st).lastAgent with
         | some a => a
         | none => st.current_agent) := by
  intro fuel
  induction fuel with
  | zero =>
      intro k count st
      refine ⟨Nat.le_refl _, Nat.le_refl _, by simp [chainLoop], ⟨[], by simp [chainLoop]⟩,
        rfl, rfl⟩
  | succ n ih =>
      intro k count st
      match hp : st.pending_handoff with
      | none =>
          simp only [chainLoop, hp]
          refine ⟨?_, ?_, ?_, ⟨[], ?_⟩, ?_, ?_⟩ <;> simp
      | some handoff =>
          by_cases hin : handoff.to_agent ∈ st.agents
          · simp only [chainLoop, hp, hin, if_true]
            set st2 : CoordState :=
              { st with
                pending_handoff := none
                current_agent := handoff.to_agent
                conversation_context :=
                  { Ctx.updateFromHandoff
                      ({ st with pending_handoff := none } : CoordState).conversation_context
                      handoff.context with
                    conversation_history :=
                      some ({ st with pending_handoff := none } : CoordState).conversation_history } }
              with hst2
            set oc := env.agentOutcome k handoff.to_agent handoff.user_message
              st2.conversation_context with hoc
            set st3 := appendAgentReply st2 handoff.to_agent.value oc.output with hst3
            obtain ⟨ha3, hc3, hph3, t3, hh3⟩ := appendAgentReply_fields st2
              handoff.to_agent.value oc.output
            set st4 : CoordState := { st3 with pending_handoff := oc.handoff } with hst4
            obtain ⟨ihcalls, ihlo, ihhi, ⟨t4, ihh⟩, ihag, ihcur⟩ := ih (k + 1) (count + 1) st4
            refine ⟨Nat.succ_le_succ ihcalls, Nat.le_trans (Nat.le_succ count) ihlo, ?_, ?_, ?_, ?_⟩
            · calc (chainLoop env n (k + 1) (count + 1) st4).count
                  ≤ count + 1 + n := ihhi
                _ = count + (n + 1) := by omega
            · refine ⟨t3 ++ t4, ?_⟩
              rw [ihh]
              have : st4.conversation_history = st2.conversation_history ++ t3 := hh3
              rw [this]
              simp [hst2, List.append_assoc]
            · rw [ihag]
              have : st4.agents = st2.agents := ha3
              rw [this, hst2]
            · match hla : (chainLoop env n (k + 1) (count + 1) st4).lastAgent with
              | some a =>
                  simpa [hla] using ihcur
              | none =>
                  rw [hla] at ihcur
                  simp only [ihcur]
                  have : st4.current_agent = st2.current_agent := hc3
                  rw [this, hst2]
          · simp only [chainLoop, hp, hin, if_false]
            refine ⟨?_, ?_, ?_, ⟨[], ?_⟩, ?_, ?_⟩ <;> simp

end MultiAgentCoordinator

namespace MultiAgentCoordinator

/-- The chain wrapper keeps the loop's state and counters, appending only the
overflow notice to the output when the bound was consumed. -/
theorem processHandoffChain_spec (env : CoordEnv) (k : Nat) (st : CoordState)
    (msg : String) :
    (_process_handoff_chain env k st msg).state = (chainLoop env max_handoffs k 0 st).state ∧
    (_process_handoff_chain env k st msg).agentCalls =
      (chainLoop env max_handoffs k 0 st).agentCalls ∧
    (_process_handoff_chain env k st msg).count = (chainLoop env max_handoffs k 0 st).count ∧
    (_process_handoff_chain env k st msg).lastAgent =
      (chainLoop env max_handoffs k 0 st).lastAgent ∧
    (_process_handoff_chain env k st msg).output =
      (if max_handoffs ≤ (chainLoop env max_handoffs k 0 st).count then
        (chainLoop env max_handoffs k 0 st).output ++ [chainLimitMsg]
       else (chainLoop env max_handoffs k 0 st).output) := by
  unfold _process_handoff_chain
  by_cases h : max_handoffs ≤ (chainLoop env max_handoffs k 0 st).count <;> simp [h]

/-- Invariant of the routing scan: at most 4 agent invocations (one routed
target plus a chain of at most 3), chain counter at most 3, history only
appended to, registry untouched, and `current_agent` ends at the last agent
invoked (unchanged when none was). -/
theorem routeScan_spec (env : CoordEnv) (st : CoordState) (user_message : String) :
    ∀ tcs : List ToolCall,
      (routeScan env st user_message tcs).agentCalls ≤ 4 ∧
      (routeScan env st user_message tcs).count ≤ 3 ∧
      (∃ t, (routeScan env st user_message tcs).state.conversation_history =
        st.conversation_history ++ t) ∧
      (routeScan env st user_message tcs).state.agents = st.agents ∧
      (routeScan env st user_message tcs).state.current_agent =
        (match (routeScan env st user_message tcs).lastAgent with
         | some a => a
         | none => st.current_agent) ∧
      (3 ≤ (routeScan env st user_message tcs).count →
        (routeScan env st user_message tcs).output.getLast? = some chainLimitMsg) := by
  intro tcs
  induction tcs with
  | nil =>
      refine ⟨by simp [routeScan], by simp [routeScan], ⟨[], by simp [routeScan]⟩,
        by simp [routeScan], by simp [routeScan], ?_⟩
      intro h
      simp [routeScan] at h
  | cons tc rest ih =>
      by_cases hname : tc.name = "request_handoff"
      · simp only [routeScan, hname, if_true]
        rcases hpj : env.parseJson tc.arguments with e | args
        · exact ⟨by simp, by simp, ⟨[], by simp⟩, by simp, by simp, by simp⟩
        rcases hl1 : BaseAgent.lookupArg args "agent_type" with e | agent_type_str
        · exact ⟨by simp [hl1], by simp [hl1], ⟨[], by simp [hl1]⟩, by simp [hl1],
            by simp [hl1], by simp [hl1]⟩
        rcases hl2 : BaseAgent.lookupArg args "reason" with e | reason
        · exact ⟨by simp [hl1, hl2], by simp [hl1, hl2], ⟨[], by simp [hl1, hl2]⟩,
            by simp [hl1, hl2], by simp [hl1, hl2], by simp [hl1, hl2]⟩
        rcases hl3 : BaseAgent.lookupArg args "context_summary" with e | context_summary
        · exact ⟨by simp [hl1, hl2, hl3], by simp [hl1, hl2, hl3],
            ⟨[], by simp [hl1, hl2, hl3]⟩, by simp [hl1, hl2, hl3],
            by simp [hl1, hl2, hl3], by simp [hl1, hl2, hl3]⟩
        simp only [hl1, hl2, hl3]
        rcases hfs : AgentType.fromString agent_type_str with e | target
        · exact ⟨by simp, by simp, ⟨[], by simp⟩, by simp, by simp, by simp⟩
        simp only []
        by_cases hin : target ∈ st.agents
        · simp only [hin, if_true]
          set st2 : CoordState :=
            { st with
              current_agent := target
              conversation_context :=
                { st.conversation_context with
                  handoff_reason := some reason
                  context_summary := some context_summary
                  previous_agent := some st.current_agent.value } } with hst2
          set oc := env.agentOutcome 0 target user_message st2.conversation_context
            with hoc
          set st3 := appendAgentReply st2 target.value oc.output with hst3
          obtain ⟨ha3, hc3, hph3, t3, hh3⟩ :=
            appendAgentReply_fields st2 target.value oc.output
          set st4 : CoordState := { st3 with pending_handoff := oc.handoff } with hst4
          by_cases hho : oc.handoff.isSome
          · simp only [hho, if_true]
            obtain ⟨hws, hwa, hwc, hwl, hwo⟩ :=
              processHandoffChain_spec env 1 st4 user_message
            obtain ⟨hcalls, _, hcount, ⟨t4, hh4⟩, hag, hcur⟩ :=
              chainLoop_spec env max_handoffs 1 0 st4
            refine ⟨?_, ?_, ?_, ?_, ?_, ?_⟩
            · simp only [hwa]
              have : (chainLoop env max_handoffs 1 0 st4).agentCalls ≤ 3 := hcalls
              omega
            · simp only [hwc]
              have h5 : (chainLoop env max_handoffs 1 0 st4).count ≤ 0 + max_handoffs := hcount
              simp only [max_handoffs] at h5 ⊢
              omega
            · refine ⟨t3 ++ t4, ?_⟩
              simp only [hws, hh4]
              have h4 : st4.conversation_history = st2.conversation_history ++ t3 := hh3
              rw [h4]
              simp [hst2, List.append_assoc]
            · simp only [hws, hag]
              exact ha3
            · simp only [hws, hwl]
              rcases hla : (chainLoop env max_handoffs 1 0 st4).lastAgent with _ | a
              · rw [hla] at hcur
                simp only [hcur]
                have h4 : st4.current_agent = st2.current_agent := hc3
                rw [h4, hst2]
              · simpa [hla] using hcur
            · intro hge
              simp only [hwc] at hge
              have hge' : max_handoffs ≤ (chainLoop env max_handoffs 1 0 st4).count := by
                simpa [max_handoffs] using hge
              simp only [hwo, if_pos hge']
              simp
          · simp only [hho, if_false]
            exact ⟨by simp, by simp, ⟨t3, by simpa [hst2] using hh3⟩,
              by simpa [hst2] using ha3, by simpa [hst2] using hc3, by simp⟩
        · simp only [hin, if_false]
          exact ⟨by simp, by simp, ⟨[], by simp⟩, by simp, by simp, by simp⟩
      · simp only [routeScan, hname, if_false]
        exact ih

end MultiAgentCoordinator

namespace MultiAgentCoordinator

/-- The routing entry point inherits the scan invariant; the two failure
branches invoke no agent. -/
theorem coordinateRequest_spec (env : CoordEnv) (st : CoordState) (user_message : String) :
    (_coordinate_request env st user_message).agentCalls ≤ 4 ∧
    (_coordinate_request env st user_message).count ≤ 3 ∧
    (∃ t, (_coordinate_request env st user_message).state.conversation_history =
      st.conversation_history ++ t) ∧
    (_coordinate_request env st user_message).state.agents = st.agents ∧
    (_coordinate_request env st user_message).state.current_agent =
      (match (_coordinate_request env st user_message).lastAgent with
       | some a => a
       | none => st.current_agent) ∧
    (3 ≤ (_coordinate_request env st user_message).count →
      (_coordinate_request env st user_message).output.getLast? = some chainLimitMsg) := by
  unfold _coordinate_request
  rcases hr : env.routeResponse with e | msg
  · exact ⟨by simp, by simp, ⟨[], by simp⟩, by simp, by simp, by simp⟩
  rcases htc : msg.tool_calls with _ | ⟨tc, rest⟩
  · exact ⟨by simp [htc], by simp [htc], ⟨[], by simp [htc]⟩, by simp [htc],
      by simp [htc], by simp [htc]⟩
  simp only [htc]
  exact routeScan_spec env st user_message (tc :: rest)

/-- `turnStart` clears the pending handoff, appends exactly one user entry,
and touches neither the registry nor the current agent. -/
theorem turnStart_fields (st : CoordState) (user_message : String) :
    (turnStart st user_message).agents = st.agents ∧
    (turnStart st user_message).current_agent = st.current_agent ∧
    (turnStart st user_message).pending_handoff = none ∧
    (turnStart st user_message).conversation_history =
      st.conversation_history ++ [userEntry user_message st.clock] := by
  exact ⟨rfl, rfl, rfl, rfl⟩

/-- Combined invariant of one coordinator turn: at most 4 agent invocations
(one sticky/routed invocation plus a chain of at most 3 handoffs), a chain
counter of at most 3 which, when saturated, makes the overflow notice the
last fragment of the turn, the authoritative history only appended to, the
registry untouched, and `current_agent` left at the last agent invoked. -/
theorem processMessage_spec (env : CoordEnv) (st : CoordState) (user_message : String) :
    (process_message env st user_message).agentCalls ≤ 4 ∧
    (process_message env st user_message).count ≤ 3 ∧
    (∃ t, (process_message env st user_message).state.conversation_history =
      st.conversation_history ++ t) ∧
    (process_message env st user_message).state.agents = st.agents ∧
    (process_message env st user_message).state.current_agent =
      (match (process_message env st user_message).lastAgent with
       | some a => a
       | none => st.current_agent) ∧
    (3 ≤ (process_message env st user_message).count →
      (process_message env st user_message).output.getLast? = some chainLimitMsg) := by
  obtain ⟨hta, htc, htp, hth⟩ := turnStart_fields st user_message
  unfold process_message
  by_cases hcond : (turnStart st user_message).current_agent ≠ AgentType.coordinator ∧
      (turnStart st user_message).current_agent ∈ (turnStart st user_message).agents
  · rw [if_pos hcond]
    set s2 := turnStart st user_message with hs2
    set oc := env.agentOutcome 0 s2.current_agent user_message s2.conversation_context
      with hoc
    set st3 := appendAgentReply s2 s2.current_agent.value oc.output with hst3
    obtain ⟨ha3, hc3, hph3, t3, hh3⟩ := appendAgentReply_fields s2 s2.current_agent.value
      oc.output
    set st4 : CoordState := { st3 with pending_handoff := oc.handoff } with hst4
    by_cases hho : oc.handoff.isSome
    · rw [if_pos hho]
      obtain ⟨hws, hwa, hwc, hwl, hwo⟩ := processHandoffChain_spec env 1 st4 user_message
      obtain ⟨hcalls, _, hcount, ⟨t4, hh4⟩, hag, hcur⟩ :=
        chainLoop_spec env max_handoffs 1 0 st4
      refine ⟨?_, ?_, ?_, ?_, ?_, ?_⟩
      · show (_process_handoff_chain env 1 st4 user_message).agentCalls + 1 ≤ 4
        rw [hwa]
        have h6 : (chainLoop env max_handoffs 1 0 st4).agentCalls ≤ 3 := hcalls
        omega
      · show (_process_handoff_chain env 1 st4 user_message).count ≤ 3
        rw [hwc]
        have h5 : (chainLoop env max_handoffs 1 0 st4).count ≤ 0 + 3 := hcount
        omega
      · refine ⟨[userEntry user_message st.clock] ++ t3 ++ t4, ?_⟩
        show (_process_handoff_chain env 1 st4 user_message).state.conversation_history = _
        rw [hws, hh4]
        have h4 : st4.conversation_history = s2.conversation_history ++ t3 := hh3
        rw [h4, hth]
        simp [List.append_assoc]
      · show (_process_handoff_chain env 1 st4 user_message).state.agents = st.agents
        rw [hws, hag]
        have h8 : st4.agents = s2.agents := ha3
        rw [h8, hta]
      · show (_process_handoff_chain env 1 st4 user_message).state.current_agent = _
        rw [hws]
        rcases hla : (chainLoop env max_handoffs 1 0 st4).lastAgent with _ | a
        · rw [hla] at hcur
          simp only [hcur, hwl, hla]
          have h7 : st4.current_agent = s2.current_agent := hc3
          rw [h7, htc]
        · rw [hla] at hcur
          simp only [hcur, hwl, hla]
      · intro hge
        have hge2 : 3 ≤ (_process_handoff_chain env 1 st4 user_message).count := hge
        rw [hwc] at hge2
        have hge3 : max_handoffs ≤ (chainLoop env max_handoffs 1 0 st4).count := by
          simpa [max_handoffs] using hge2
        show (oc.output ++ (_process_handoff_chain env 1 st4 user_message).output).getLast? =
          some chainLimitMsg
        rw [hwo, if_pos hge3]
        simp
    · rw [if_neg hho]
      refine ⟨?_, ?_, ?_, ?_, ?_, ?_⟩
      · show (1 : Nat) ≤ 4
        omega
      · show (0 : Nat) ≤ 3
        omega
      · refine ⟨[userEntry user_message st.clock] ++ t3, ?_⟩
        show st4.conversation_history = _
        have h4 : st4.conversation_history = s2.conversation_history ++ t3 := hh3
        rw [h4, hth]
        simp [List.append_assoc]
      · show st4.agents = st.agents
        have h8 : st4.agents = s2.agents := ha3
        rw [h8, hta]
      · show st4.current_agent = s2.current_agent
        exact hc3
      · intro hge
        simp at hge
  · rw [if_neg hcond]
    obtain ⟨hca, hcc, ⟨t1, hch⟩, hcag, hccur, hclast⟩ :=
      coordinateRequest_spec env (turnStart st user_message) user_message
    refine ⟨hca, hcc, ?_, ?_, ?_, hclast⟩
    · refine ⟨[userEntry user_message st.clock] ++ t1, ?_⟩
      rw [hch, hth]
      simp [List.append_assoc]
    · rw [hcag, hta]
    · rw [hccur, htc]

end MultiAgentCoordinator

namespace BaseAgent

/-- Combined invariant of the agent tool-call loop: one CompletionClient
invocation per iteration (hence at most `fuel` more), exhaustion yields
exactly the fixed failsafe message, a fired handoff yields no fragment at
all, and a caught exception yields exactly the apology carrying the
exception text. -/
theorem toolLoop_spec (env : AgentEnv) (agent_type : AgentType)
    (coordinatorHistory : List Entry) (message : String) :
    ∀ (fuel : Nat) (history messages : List Entry) (calls : Nat),
      (toolLoop env agent_type coordinatorHistory message fuel history messages calls).calls ≤
        calls + fuel ∧
      ((toolLoop env agent_type coordinatorHistory message fuel history messages calls).status =
          .exhausted →
        (toolLoop env agent_type coordinatorHistory message fuel history messages calls).output =
          [failsafeMsg]) ∧
      ((toolLoop env agent_type coordinatorHistory message fuel history messages
            calls).handoff.isSome →
        (toolLoop env agent_type coordinatorHistory message fuel history messages calls).output =
          [] ∧
        (toolLoop env agent_type coordinatorHistory message fuel history messages calls).status =
          .handedOff) ∧
      (∀ e, (toolLoop env agent_type coordinatorHistory message fuel history messages
            calls).status = .errored e →
        (toolLoop env agent_type coordinatorHistory message fuel history messages calls).output =
          [errApology e]) := by
  intro fuel
  induction fuel with
  | zero =>
      intro history messages calls
      refine ⟨by simp [toolLoop], by simp [toolLoop], by simp [toolLoop], ?_⟩
      intro e he
      simp [toolLoop] at he
  | succ n ih =>
      intro history messages calls
      rcases hc : env.complete messages with e | msg
      · have hred : toolLoop env agent_type coordinatorHistory message (n + 1) history
            messages calls =
            ⟨history, [errApology e], none, calls + 1, .errored e⟩ := by
          simp [toolLoop, hc]
        rw [hred]
        refine ⟨by show calls + 1 ≤ calls + (n + 1); omega, by simp, by simp, ?_⟩
        intro e' he'
        simp only [AgentStatus.errored.injEq] at he'
        simp [he']
      · rcases htc : msg.tool_calls with _ | ⟨tc, tcs⟩
        · rcases hco : msg.content with _ | c
          · have hred : toolLoop env agent_type coordinatorHistory message (n + 1) history
                messages calls =
                toolLoop env agent_type coordinatorHistory message n history messages
                  (calls + 1) := by
              simp [toolLoop, hc, htc, hco]
            rw [hred]
            obtain ⟨iha, ihb, ihc, ihd⟩ := ih history messages (calls + 1)
            exact ⟨by omega, ihb, ihc, ihd⟩
          · by_cases hemp : c = ""
            · have hred : toolLoop env agent_type coordinatorHistory message (n + 1) history
                  messages calls =
                  toolLoop env agent_type coordinatorHistory message n history messages
                    (calls + 1) := by
                simp [toolLoop, hc, htc, hco, hemp]
              rw [hred]
              obtain ⟨iha, ihb, ihc, ihd⟩ := ih history messages (calls + 1)
              exact ⟨by omega, ihb, ihc, ihd⟩
            · have hred : toolLoop env agent_type coordinatorHistory message (n + 1) history
                  messages calls =
                  ⟨history ++ [assistantAnswerEntry c],
                   (pySplit c).map (fun w => w ++ " "), none, calls + 1, .answered⟩ := by
                simp [toolLoop, hc, htc, hco, hemp]
              rw [hred]
              refine ⟨by show calls + 1 ≤ calls + (n + 1); omega, by simp, by simp, ?_⟩
              intro e' he'
              simp at he'
        · rcases hpc : processCalls env agent_type coordinatorHistory message msg.content
              (history ++ [assistantCallsEntry msg.content (tc :: tcs)]) messages
              (tc :: tcs) with
            ⟨h2, hr⟩ | ⟨h2, m2⟩ | ⟨h2, e2⟩
          · have hred : toolLoop env agent_type coordinatorHistory message (n + 1) history
                messages calls =
                ⟨h2, [], some hr, calls + 1, .handedOff⟩ := by
              simp [toolLoop, hc, htc, hpc]
            rw [hred]
            refine ⟨by show calls + 1 ≤ calls + (n + 1); omega, by simp, by simp, ?_⟩
            intro e' he'
            simp at he'
          · have hred : toolLoop env agent_type coordinatorHistory message (n + 1) history
                messages calls =
                toolLoop env agent_type coordinatorHistory message n h2 m2 (calls + 1) := by
              simp [toolLoop, hc, htc, hpc]
            rw [hred]
            obtain ⟨iha, ihb, ihc, ihd⟩ := ih h2 m2 (calls + 1)
            exact ⟨by omega, ihb, ihc, ihd⟩
          · have hred : toolLoop env agent_type coordinatorHistory message (n + 1) history
                messages calls =
                ⟨h2, [errApology e2], none, calls + 1, .errored e2⟩ := by
              simp [toolLoop, hc, htc, hpc]
            rw [hred]
            refine ⟨by show calls + 1 ≤ calls + (n + 1); omega, by simp, by simp, ?_⟩
            intro e' he'
            simp only [AgentStatus.errored.injEq] at he'
            simp [he']

end BaseAgent

section Fixtures

/-- A completion oracle that always answers with no tool calls and no
content: the loop falls through all five iterations. -/
def envExh : BaseAgent.AgentEnv :=
  { complete := fun _ => .ok { content := none, tool_calls := [] }
    parseJson := fun _ => .error "unused"
    handle_tool_call := fun _ _ => .error "unused" }

/-- A completion oracle whose first response is a `request_handoff` tool
call with well-formed arguments. -/
def envHand : BaseAgent.AgentEnv :=
  { complete := fun _ => .ok
      { content := none
        tool_calls := [{ id := "c1", name := "request_handoff", arguments := "a" }] }
    parseJson := fun _ => .ok
      [("agent_type", "authentication"), ("reason", "need login"), ("context_summary", "cs")]
    handle_tool_call := fun _ _ => .error "unused" }

/-- A completion oracle that raises on every call. -/
def envBoom : BaseAgent.AgentEnv :=
  { complete := fun _ => .error "boom"
    parseJson := fun _ => .error "unused"
    handle_tool_call := fun _ _ => .error "unused" }

/-- A handoff request from one agent to another, as an agent outcome
fixture for the coordinator oracles. -/
def mkHandoff (fromA toA : AgentType) : HandoffRequest :=
  { from_agent := fromA
    to_agent := toA
    context :=
      { summary := "s", conversation_history := [], previous_agent := fromA.value,
        handoff_reason := "r" }
    reason := "r"
    user_message := "m" }

/-- The next agent in the pathological handoff cycle, by invocation index. -/
def nextAgent : Nat → AgentType
  | 0 => .authentication
  | 1 => .pharmacy
  | 2 => .benefits
  | _ => .pricing

/-- The pathological configuration of P3: every agent invocation immediately
requests a handoff to the next registered agent and streams nothing. -/
def envCycle : MultiAgentCoordinator.CoordEnv :=
  { routeResponse := .error "unused"
    parseJson := fun _ => .error "unused"
    agentOutcome := fun k a _ _ => { output := [], handoff := some (mkHandoff a (nextAgent k)) } }

/-- A session with four registered agents, currently talking to pricing. -/
def stDemo : MultiAgentCoordinator.CoordState :=
  { agents := [.pricing, .authentication, .pharmacy, .benefits]
    conversation_context := {}
    current_agent := .pricing
    conversation_history := []
    pending_handoff := none
    clock := 0 }

/-- Agents that hand off on the first three invocations only and stream
nothing: the third chain agent completes normally with no further handoff. -/
def envThreeHops : MultiAgentCoordinator.CoordEnv :=
  { routeResponse := .error "unused"
    parseJson := fun _ => .error "unused"
    agentOutcome := fun k a _ _ =>
      { output := []
        handoff := if k ≤ 2 then some (mkHandoff a (nextAgent k)) else none } }

/-- A session entering the chain with a pending handoff to authentication. -/
def stPending : MultiAgentCoordinator.CoordState :=
  { stDemo with pending_handoff := some (mkHandoff .pricing .authentication) }

/-- A session entering the chain with a pending handoff to the unregistered
clinical agent. -/
def stBadTarget : MultiAgentCoordinator.CoordState :=
  { stDemo with pending_handoff := some (mkHandoff .pricing .clinical) }

/-- The routing tool call selecting the clinical agent. -/
def routeTcClinical : ToolCall :=
  { id := "t1", name := "request_handoff", arguments := "a" }

/-- The routing completion message carrying that tool call. -/
def routeMsgClinical : CompMsg :=
  { content := none, tool_calls := [routeTcClinical] }

/-- The parsed arguments of that tool call. -/
def routeArgsClinical : BaseAgent.ArgMap :=
  [("agent_type", "clinical"), ("reason", "r2"), ("context_summary", "cs2")]

/-- A routing oracle that selects the unregistered clinical agent. -/
def envRouteClinical : MultiAgentCoordinator.CoordEnv :=
  { routeResponse := .ok routeMsgClinical
    parseJson := fun _ => .ok routeArgsClinical
    agentOutcome := fun _ _ _ _ => { output := [], handoff := none } }

/-- A fresh session with no active agent. -/
def stFresh : MultiAgentCoordinator.CoordState :=
  { stDemo with current_agent := .coordinator }

end Fixtures

/-- C2: for every input message and context (and any behavior of the
CompletionClient, JSON parser and tool handlers, raising included), a single
`BaseAgent.process_message` call invokes the CompletionClient at most 5
times, and if the 5-iteration bound is exhausted without a final answer or a
handoff, the call terminates by yielding exactly the fixed apologetic
failsafe message.  No exception escapes: the embedding is a total function
whose error channel is the caught-and-reported status. -/
theorem claim_C2_bounded_tool_loop (env : BaseAgent.AgentEnv) (agent_type : AgentType)
    (system_prompt : String) (coordinatorHistory localHistory : List Entry)
    (message : String) (context : Option Ctx) :
    (BaseAgent.process_message env agent_type system_prompt coordinatorHistory localHistory
      message context).calls ≤ 5 ∧
    ((BaseAgent.process_message env agent_type system_prompt coordinatorHistory localHistory
        message context).status = .exhausted →
      (BaseAgent.process_message env agent_type system_prompt coordinatorHistory localHistory
        message context).output = [BaseAgent.failsafeMsg]) := by
  have hdef : BaseAgent.process_message env agent_type system_prompt coordinatorHistory
      localHistory message context =
      BaseAgent.toolLoop env agent_type coordinatorHistory message 5
        (localHistory ++ [BaseAgent.localUserEntry message])
        (BaseAgent.build_messages system_prompt
          (localHistory ++ [BaseAgent.localUserEntry message]) message context) 0 := rfl
  rw [hdef]
  obtain ⟨h1, h2, _, _⟩ := BaseAgent.toolLoop_spec env agent_type coordinatorHistory message 5
    (localHistory ++ [BaseAgent.localUserEntry message])
    (BaseAgent.build_messages system_prompt
      (localHistory ++ [BaseAgent.localUserEntry message]) message context) 0
  exact ⟨by simpa using h1, h2⟩

/-- Witness for C2 at a concrete oracle that never answers: the loop runs
its five iterations and yields the failsafe message. -/
theorem claim_C2_witness :
    (BaseAgent.process_message envExh .pricing "sys" [] [] "hi" none).calls ≤ 5 ∧
    (BaseAgent.process_message envExh .pricing "sys" [] [] "hi" none).output =
      [BaseAgent.failsafeMsg] :=
  ⟨(claim_C2_bounded_tool_loop envExh .pricing "sys" [] [] "hi" none).1,
   (claim_C2_bounded_tool_loop envExh .pricing "sys" [] [] "hi" none).2 (by decide)⟩

/-- C4: whenever `BaseAgent.process_message` resolves a `request_handoff`
tool call (observable as the constructed `HandoffRequest` being handed to
the coordinator), the call terminates with the handed-off status and yields
zero text fragments. -/
theorem claim_C4_silent_handoff (env : BaseAgent.AgentEnv) (agent_type : AgentType)
    (system_prompt : String) (coordinatorHistory localHistory : List Entry)
    (message : String) (context : Option Ctx) :
    (BaseAgent.process_message env agent_type system_prompt coordinatorHistory localHistory
        message context).handoff.isSome →
    (BaseAgent.process_message env agent_type system_prompt coordinatorHistory localHistory
        message context).output = [] ∧
    (BaseAgent.process_message env agent_type system_prompt coordinatorHistory localHistory
        message context).status = .handedOff := by
  have hdef : BaseAgent.process_message env agent_type system_prompt coordinatorHistory
      localHistory message context =
      BaseAgent.toolLoop env agent_type coordinatorHistory message 5
        (localHistory ++ [BaseAgent.localUserEntry message])
        (BaseAgent.build_messages system_prompt
          (localHistory ++ [BaseAgent.localUserEntry message]) message context) 0 := rfl
  rw [hdef]
  obtain ⟨_, _, h3, _⟩ := BaseAgent.toolLoop_spec env agent_type coordinatorHistory message 5
    (localHistory ++ [BaseAgent.localUserEntry message])
    (BaseAgent.build_messages system_prompt
      (localHistory ++ [BaseAgent.localUserEntry message]) message context) 0
  exact h3

/-- Witness for C4 at a concrete oracle whose first response requests a
handoff: a handoff is produced and the fragment stream is empty. -/
theorem claim_C4_witness :
    (BaseAgent.process_message envHand .pricing "sys" [] [] "hi" none).output = [] ∧
    (BaseAgent.process_message envHand .pricing "sys" [] [] "hi" none).status = .handedOff :=
  claim_C4_silent_handoff envHand .pricing "sys" [] [] "hi" none (by decide)

/-- C5: the carried history of a requested handoff is the coordinator's
authoritative history followed by exactly those entries of the agent's
local history not already present (by value equality), order-preserving and
duplicate-free; in particular local `[A, B, C]` against authoritative
`[A, B]` merges to `[A, B, C]`. -/
theorem claim_C5_handoff_history_dedup (A B C : Entry) (hCA : C ≠ A) (hCB : C ≠ B)
    (at0 to0 : AgentType) (r s u : String) :
    (BaseAgent.request_handoff at0 [A, B] [A, B, C] to0 r s u).context.conversation_history =
      [A, B, C] ∧
    ∀ (agent_type toAgent : AgentType) (coordinatorHistory localHistory : List Entry)
      (reason context_summary user_message : String),
      ∃ extra : List Entry,
        (BaseAgent.request_handoff agent_type coordinatorHistory localHistory toAgent reason
          context_summary user_message).context.conversation_history =
          coordinatorHistory ++ extra ∧
        extra.Sublist localHistory ∧ extra.Nodup ∧
        (∀ e ∈ extra, e ∉ coordinatorHistory) ∧
        (∀ e ∈ localHistory, e ∈ coordinatorHistory ∨ e ∈ extra) := by
  constructor
  · show BaseAgent.mergeHistoryLoop [A, B] [A, B, C] = [A, B, C]
    simp [BaseAgent.mergeHistoryLoop, hCA, hCB]
  · intro agent_type toAgent coordinatorHistory localHistory reason context_summary user_message
    exact mergeHistoryLoop_spec localHistory coordinatorHistory

/-- Witness for C5 at three concrete pairwise-distinct entries. -/
theorem claim_C5_witness :
    (BaseAgent.request_handoff .pricing
        [BaseAgent.localUserEntry "a", BaseAgent.assistantAnswerEntry "b"]
        [BaseAgent.localUserEntry "a", BaseAgent.assistantAnswerEntry "b",
          BaseAgent.localUserEntry "c"]
        .clinical "r" "s" "u").context.conversation_history =
      [BaseAgent.localUserEntry "a", BaseAgent.assistantAnswerEntry "b",
        BaseAgent.localUserEntry "c"] :=
  (claim_C5_handoff_history_dedup (BaseAgent.localUserEntry "a")
    (BaseAgent.assistantAnswerEntry "b") (BaseAgent.localUserEntry "c")
    (by decide) (by decide) .pricing .clinical "r" "s" "u").1

/-- C6 counterexample: the claim says the apologetic message never contains
the raw exception, but line 193 interpolates `str(e)`: with a
CompletionClient that raises "boom", the single yielded message is literally
the apology prefix concatenated with the raw exception text. -/
theorem claim_C6_counterexample :
    (BaseAgent.process_message envBoom .pricing "sys" [] [] "hi" none).output =
      [BaseAgent.errApology "boom"] ∧
    BaseAgent.errApology "boom" =
      "I\x27m sorry, I encountered an error processing your request: " ++ "boom" := by
  constructor
  · decide
  · rfl

/-- C6 amended: every exception raised by the CompletionClient, the JSON
parser or a tool handler during the loop is caught at the top level of
`process_message` — no exception escapes (the embedding is total) — and the
caller receives exactly one apologetic message, which embeds the raw
exception text rather than omitting it. -/
theorem claim_C6_exception_caught (env : BaseAgent.AgentEnv) (agent_type : AgentType)
    (system_prompt : String) (coordinatorHistory localHistory : List Entry)
    (message : String) (context : Option Ctx) (e : String) :
    (BaseAgent.process_message env agent_type system_prompt coordinatorHistory localHistory
        message context).status = .errored e →
    (BaseAgent.process_message env agent_type system_prompt coordinatorHistory localHistory
        message context).output = [BaseAgent.errApology e] := by
  have hdef : BaseAgent.process_message env agent_type system_prompt coordinatorHistory
      localHistory message context =
      BaseAgent.toolLoop env agent_type coordinatorHistory message 5
        (localHistory ++ [BaseAgent.localUserEntry message])
        (BaseAgent.build_messages system_prompt
          (localHistory ++ [BaseAgent.localUserEntry message]) message context) 0 := rfl
  rw [hdef]
  obtain ⟨_, _, _, h4⟩ := BaseAgent.toolLoop_spec env agent_type coordinatorHistory message 5
    (localHistory ++ [BaseAgent.localUserEntry message])
    (BaseAgent.build_messages system_prompt
      (localHistory ++ [BaseAgent.localUserEntry message]) message context) 0
  exact h4 e

/-- Witness for the amended C6 at the raising oracle. -/
theorem claim_C6_witness :
    (BaseAgent.process_message envBoom .pricing "sys" [] [] "hi" none).output =
      [BaseAgent.errApology "boom"] :=
  claim_C6_exception_caught envBoom .pricing "sys" [] [] "hi" none "boom" (by decide)

namespace MultiAgentCoordinator

/-- One chain step whose pending handoff targets an unregistered agent:
consume the handoff, yield the fixed message, and stop. -/
theorem chainLoop_unavailable (env : CoordEnv) (n k count : Nat) (st : CoordState)
    (h : HandoffRequest) (hp : st.pending_handoff = some h)
    (hin : h.to_agent ∉ st.agents) :
    chainLoop env (n + 1) k count st =
      ⟨{ st with pending_handoff := none }, [chainUnavailableMsg h.to_agent], 0,
        count + 1, none⟩ := by
  simp [chainLoop, hp, hin]

end MultiAgentCoordinator

/-- C1 counterexample: with four registered agents that each immediately
request a handoff to the next, a single user turn performs 4 agent
invocations (the sticky agent plus the 3 chain hops), refuting the claimed
bound of 3. -/
theorem claim_C1_counterexample :
    (MultiAgentCoordinator.process_message envCycle stDemo "hello").agentCalls = 4 ∧
    ¬ (MultiAgentCoordinator.process_message envCycle stDemo "hello").agentCalls ≤ 3 := by
  constructor
  · decide
  · decide

/-- C1 amended: for every configuration of registered agents (the
pathological all-handoff one included), a single user turn performs at most
`max_hops + 1 = 4` agent invocations — one initial invocation plus at most
`max_hops = 3` handoff-chain invocations; on consuming the chain bound the
turn terminates by emitting the fixed "transferred through multiple
specialists" notice as its last fragment, `current_agent` is left at
whatever agent was last invoked (unchanged when none was), and no exception
is raised (the turn is a total function of the oracles). -/
theorem claim_C1_turn_bounded (env : MultiAgentCoordinator.CoordEnv)
    (st : MultiAgentCoordinator.CoordState) (user_message : String) :
    (MultiAgentCoordinator.process_message env st user_message).agentCalls ≤ 4 ∧
    (MultiAgentCoordinator.process_message env st user_message).count ≤ 3 ∧
    (3 ≤ (MultiAgentCoordinator.process_message env st user_message).count →
      (MultiAgentCoordinator.process_message env st user_message).output.getLast? =
        some MultiAgentCoordinator.chainLimitMsg) ∧
    (MultiAgentCoordinator.process_message env st user_message).state.current_agent =
      (match (MultiAgentCoordinator.process_message env st user_message).lastAgent with
       | some a => a
       | none => st.current_agent) := by
  obtain ⟨h1, h2, _, _, h5, h6⟩ := MultiAgentCoordinator.processMessage_spec env st user_message
  exact ⟨h1, h2, h6, h5⟩

/-- Witness for the amended C1 at the pathological cycle: the bound is met
and the overflow notice ends the turn. -/
theorem claim_C1_witness :
    (MultiAgentCoordinator.process_message envCycle stDemo "hello").agentCalls ≤ 4 ∧
    (MultiAgentCoordinator.process_message envCycle stDemo "hello").output.getLast? =
      some MultiAgentCoordinator.chainLimitMsg :=
  ⟨(claim_C1_turn_bounded envCycle stDemo "hello").1,
   (claim_C1_turn_bounded envCycle stDemo "hello").2.2.1 (by decide)⟩

/-- C3: the coordinator clears any outstanding `pending_handoff` before
routing or forwarding a new user message — a turn behaves identically
whatever handoff was pending when it started, so at the start of processing
each user message the pending handoff is (observably) `None`, and at most
one `HandoffRequest` is outstanding at any instant (the field is a single
`Option`). -/
theorem claim_C3_pending_cleared (env : MultiAgentCoordinator.CoordEnv)
    (st : MultiAgentCoordinator.CoordState) (user_message : String) :
    MultiAgentCoordinator.process_message env st user_message =
      MultiAgentCoordinator.process_message env
        { st with pending_handoff := none } user_message := rfl

/-- C7: a `HandoffRequest` naming an unregistered `to_agent` makes the chain
abort at once — no agent invoked, the fixed "not available" message yielded,
`current_agent` and the history unchanged, `pending_handoff` cleared; and the
routing path of a turn starting with no active agent behaves the same way
when the routed target is unregistered. -/
theorem claim_C7_unavailable_target (env : MultiAgentCoordinator.CoordEnv)
    (k : Nat) (st : MultiAgentCoordinator.CoordState) (h : HandoffRequest)
    (msg0 : String) (hp : st.pending_handoff = some h) (hin : h.to_agent ∉ st.agents) :
    ((MultiAgentCoordinator._process_handoff_chain env k st msg0).output =
        [MultiAgentCoordinator.chainUnavailableMsg h.to_agent] ∧
      (MultiAgentCoordinator._process_handoff_chain env k st msg0).state.current_agent =
        st.current_agent ∧
      (MultiAgentCoordinator._process_handoff_chain env k st msg0).state.conversation_history =
        st.conversation_history ∧
      (MultiAgentCoordinator._process_handoff_chain env k st msg0).state.pending_handoff =
        none ∧
      (MultiAgentCoordinator._process_handoff_chain env k st msg0).agentCalls = 0) ∧
    ∀ (env2 : MultiAgentCoordinator.CoordEnv) (st2 : MultiAgentCoordinator.CoordState)
      (umsg : String) (m : CompMsg) (tc : ToolCall) (args : BaseAgent.ArgMap)
      (ats reason csum : String) (t : AgentType),
      env2.routeResponse = .ok m → m.tool_calls = [tc] → tc.name = "request_handoff" →
      env2.parseJson tc.arguments = .ok args →
      BaseAgent.lookupArg args "agent_type" = .ok ats →
      BaseAgent.lookupArg args "reason" = .ok reason →
      BaseAgent.lookupArg args "context_summary" = .ok csum →
      AgentType.fromString ats = .ok t → t ∉ st2.agents →
      (MultiAgentCoordinator._coordinate_request env2 st2 umsg).output =
        [MultiAgentCoordinator.routeUnavailableMsg ats] ∧
      (MultiAgentCoordinator._coordinate_request env2 st2 umsg).state.current_agent =
        st2.current_agent ∧
      (MultiAgentCoordinator._coordinate_request env2 st2 umsg).state.pending_handoff =
        st2.pending_handoff ∧
      (MultiAgentCoordinator._coordinate_request env2 st2 umsg).agentCalls = 0 := by
  constructor
  · have hstep := MultiAgentCoordinator.chainLoop_unavailable env 2 k 0 st h hp hin
    have hdef : MultiAgentCoordinator._process_handoff_chain env k st msg0 =
        (if MultiAgentCoordinator.max_handoffs ≤
            (MultiAgentCoordinator.chainLoop env MultiAgentCoordinator.max_handoffs k 0
              st).count then
          { MultiAgentCoordinator.chainLoop env MultiAgentCoordinator.max_handoffs k 0 st with
            output := (MultiAgentCoordinator.chainLoop env MultiAgentCoordinator.max_handoffs
              k 0 st).output ++ [MultiAgentCoordinator.chainLimitMsg] }
        else MultiAgentCoordinator.chainLoop env MultiAgentCoordinator.max_handoffs k 0 st) :=
      rfl
    have h3 : MultiAgentCoordinator.chainLoop env MultiAgentCoordinator.max_handoffs k 0 st =
        MultiAgentCoordinator.chainLoop env (2 + 1) k 0 st := rfl
    rw [hdef, h3, hstep]
    refine ⟨?_, ?_, ?_, ?_, ?_⟩ <;> simp [MultiAgentCoordinator.max_handoffs]
  · intro env2 st2 umsg m tc args ats reason csum t hr htc hname hpj hl1 hl2 hl3 hfs hnin
    have hdef : MultiAgentCoordinator._coordinate_request env2 st2 umsg =
        MultiAgentCoordinator.routeScan env2 st2 umsg [tc] := by
      simp [MultiAgentCoordinator._coordinate_request, hr, htc]
    rw [hdef]
    have hscan : MultiAgentCoordinator.routeScan env2 st2 umsg [tc] =
        ⟨{ st2 with conversation_context :=
            { st2.conversation_context with
              handoff_reason := some reason
              context_summary := some csum
              previous_agent := some st2.current_agent.value } },
          [MultiAgentCoordinator.routeUnavailableMsg ats], 0, 0, none⟩ := by
      simp [MultiAgentCoordinator.routeScan, hname, hpj, hl1, hl2, hl3, hfs, hnin]
    rw [hscan]
    exact ⟨rfl, rfl, rfl, rfl⟩

/-- Witness for C7: a pending handoff to the unregistered clinical agent
aborts the chain, and a routed handoff to clinical from a fresh session
yields the fixed message without touching `current_agent`. -/
theorem claim_C7_witness :
    (MultiAgentCoordinator._process_handoff_chain envCycle 0 stBadTarget "m").output =
      [MultiAgentCoordinator.chainUnavailableMsg AgentType.clinical] ∧
    (MultiAgentCoordinator._coordinate_request envRouteClinical stFresh "help").output =
      [MultiAgentCoordinator.routeUnavailableMsg "clinical"] :=
  ⟨((claim_C7_unavailable_target envCycle 0 stBadTarget
      (mkHandoff .pricing .clinical) "m" (by decide) (by decide)).1).1,
   ((claim_C7_unavailable_target envCycle 0 stBadTarget
      (mkHandoff .pricing .clinical) "m" (by decide) (by decide)).2 envRouteClinical stFresh
      "help" routeMsgClinical routeTcClinical routeArgsClinical
      "clinical" "r2" "cs2" .clinical rfl rfl rfl rfl rfl rfl rfl
      rfl (by decide)).1⟩

/-- C8: within a session, a turn never shortens the authoritative history
and never mutates an existing entry — the prior history is a prefix of the
new one (entries are only appended). -/
theorem claim_C8_history_monotone (env : MultiAgentCoordinator.CoordEnv)
    (st : MultiAgentCoordinator.CoordState) (user_message : String) :
    st.conversation_history.length ≤
      (MultiAgentCoordinator.process_message env st
        user_message).state.conversation_history.length ∧
    ∃ t, (MultiAgentCoordinator.process_message env st
        user_message).state.conversation_history = st.conversation_history ++ t := by
  obtain ⟨_, _, ⟨t, ht⟩, _, _, _⟩ := MultiAgentCoordinator.processMessage_spec env st
    user_message
  exact ⟨by rw [ht]; simp, ⟨t, ht⟩⟩

/-- C9: `reset_conversation` clears the history and the context, resets
`current_agent` to the COORDINATOR sentinel, and leaves the registry of
registered agents entirely unchanged. -/
theorem claim_C9_reset (st : MultiAgentCoordinator.CoordState) :
    (MultiAgentCoordinator.reset_conversation st).conversation_history = [] ∧
    (MultiAgentCoordinator.reset_conversation st).conversation_context = {} ∧
    (MultiAgentCoordinator.reset_conversation st).current_agent = AgentType.coordinator ∧
    (MultiAgentCoordinator.reset_conversation st).agents = st.agents :=
  ⟨rfl, rfl, rfl, rfl⟩

/-- C10: whenever the chain consumes `max_handoffs` (3) handoff requests,
the fixed overflow notice is the last fragment — the trigger is the counter
reaching the bound, not a fourth pending handoff; `reset_conversation`
leaves `pending_handoff` untouched; and the next `process_message` call is
insensitive to any surviving pending handoff (it clears it on entry). -/
theorem claim_C10_bound_notice_and_reset (env : MultiAgentCoordinator.CoordEnv) :
    (∀ (k : Nat) (st : MultiAgentCoordinator.CoordState) (msg0 : String),
      3 ≤ (MultiAgentCoordinator._process_handoff_chain env k st msg0).count →
      (MultiAgentCoordinator._process_handoff_chain env k st msg0).output.getLast? =
        some MultiAgentCoordinator.chainLimitMsg) ∧
    (∀ st : MultiAgentCoordinator.CoordState,
      (MultiAgentCoordinator.reset_conversation st).pending_handoff = st.pending_handoff) ∧
    (∀ (st : MultiAgentCoordinator.CoordState) (user_message : String),
      MultiAgentCoordinator.process_message env st user_message =
        MultiAgentCoordinator.process_message env
          { st with pending_handoff := none } user_message) := by
  refine ⟨?_, fun st => rfl, fun st user_message => rfl⟩
  intro k st msg0 hge
  have hdef : MultiAgentCoordinator._process_handoff_chain env k st msg0 =
      (if MultiAgentCoordinator.max_handoffs ≤
          (MultiAgentCoordinator.chainLoop env MultiAgentCoordinator.max_handoffs k 0
            st).count then
        { MultiAgentCoordinator.chainLoop env MultiAgentCoordinator.max_handoffs k 0 st with
          output := (MultiAgentCoordinator.chainLoop env MultiAgentCoordinator.max_handoffs
            k 0 st).output ++ [MultiAgentCoordinator.chainLimitMsg] }
      else MultiAgentCoordinator.chainLoop env MultiAgentCoordinator.max_handoffs k 0 st) :=
    rfl
  by_cases hcnt : MultiAgentCoordinator.max_handoffs ≤
      (MultiAgentCoordinator.chainLoop env MultiAgentCoordinator.max_handoffs k 0 st).count
  · rw [hdef, if_pos hcnt]
    simp
  · exfalso
    rw [hdef, if_neg hcnt] at hge
    exact hcnt hge

/-- Witness for C10: three consumed handoffs where the third agent completes
normally (no fourth pending handoff) still end with the overflow notice, and
the pending handoff left by the cycle turn survives a reset. -/
theorem claim_C10_witness :
    (MultiAgentCoordinator._process_handoff_chain envThreeHops 1 stPending "m").count = 3 ∧
    (MultiAgentCoordinator._process_handoff_chain envThreeHops 1 stPending
      "m").state.pending_handoff = none ∧
    (MultiAgentCoordinator._process_handoff_chain envThreeHops 1 stPending
      "m").output.getLast? = some MultiAgentCoordinator.chainLimitMsg ∧
    (MultiAgentCoordinator.reset_conversation stPending).pending_handoff =
      some (mkHandoff .pricing .authentication) :=
  ⟨by decide, by decide,
   (claim_C10_bound_notice_and_reset envThreeHops).1 1 stPending "m" (by decide),
   (claim_C10_bound_notice_and_reset envThreeHops).2.1 stPending⟩
